import Mathlib

/-!
Verification development for the Twitter/X video auto-pause content script
(src/content.js). The script is shallowly embedded: every host interaction
(pause call, play call, listener attachment, observer registration, timer
scheduling) is recorded in an explicit action trace, module-level mutable
state (the `userClickedPlay` Set and the `observedVideos` WeakSet) is passed
explicitly, and the host's pause/play primitives are modelled as fallible
(they may raise synchronously or leave the playback flag unflipped).
Line numbers in comments refer to src/content.js.
-/

namespace AutoPause

/-- A host video element (external, owned by the document). `id` models
reference identity; `paused` is the host-readable playback flag;
`playListenerAttached` models the `dataset.playListenerAttached` marker
(line 52); the remaining flags model the possible behaviours of the host's
pause/play primitives: a synchronous raise, an ineffective pause (the
`video.paused` flag does not flip, line 96), and an asynchronous play
rejection (line 209). -/
structure Video where
  id : Nat
  paused : Bool
  playListenerAttached : Bool
  pauseThrows : Bool
  pauseEffective : Bool
  playThrows : Bool
  playRejects : Bool
deriving DecidableEq

/-- Observable events of a run: host primitive invocations, state markers the
script logs, and scheduled callbacks. `check v b` marks one entry into the
per-video decision of `pauseVideoIfAppropriate` (the log at line 67) with
assertive flag `b`; `observe v` is `intersectionObserver.observe(video)`
(line 158); `scheduleRecheck v d` is the `setTimeout` at lines 121-124. -/
inductive Action where
  | attachListener (v : Nat)
  | check (v : Nat) (assertive : Bool)
  | pauseCall (v : Nat)
  | pauseError (v : Nat)
  | pauseAnomaly (v : Nat)
  | observe (v : Nat)
  | grantIntent (v : Nat)
  | playCall (v : Nat)
  | playRejected (v : Nat)
  | scheduleRecheck (v : Nat) (delayMs : Nat)
deriving DecidableEq

/-- Module-level mutable state of the script: the `userClickedPlay` Set
(line 13, the IntentSet) and the `observedVideos` WeakSet (line 15, the
ObservedSet), both as lists of video identities. -/
structure GState where
  userClickedPlay : List Nat
  observedVideos : List Nat
deriving DecidableEq

/-- Membership test on an identity list; models `Set.has` / `WeakSet.has`. -/
def hasId : List Nat → Nat → Bool
  | [], _ => false
  | a :: t, x => if a = x then true else hasId t x

/-- Occurrence count of an element in a list. -/
def cnt {α : Type} [DecidableEq α] (a : α) : List α → Nat
  | [] => 0
  | b :: t => (if b = a then 1 else 0) + cnt a t

/-- Numeric value of a boolean flag. -/
def boolNat (b : Bool) : Nat := if b then 1 else 0

/-- The host's `video.pause()` primitive: it may raise synchronously
(`pauseThrows`), and on normal return the `paused` flag flips only when the
host honours the call (`pauseEffective`); the script explicitly re-reads
`video.paused` afterwards to detect the latter (lines 93-97). -/
def hostPause (v : Video) : Except Unit Video :=
  if v.pauseThrows then Except.error ()
  else Except.ok (if v.pauseEffective then { v with paused := true } else v)

/-- The guarded pause-call sequence shared by both call sites
(lines 86-99 and lines 29-38): invoke `video.pause()` inside try/catch;
on a synchronous raise, log and swallow; on normal return, re-read
`video.paused` and log a warning when the flag did not flip. -/
def doPause (v : Video) : Video × List Action :=
  match hostPause v with
  | Except.error _ => (v, [Action.pauseCall v.id, Action.pauseError v.id])
  | Except.ok v2 =>
      (v2, Action.pauseCall v.id ::
             (if v2.paused then [] else [Action.pauseAnomaly v.id]))

/-- Body of `handleVideoPlay` (lines 24-42): a 'play' event on a video not in
`userClickedPlay` is reversed by an immediate guarded pause; a video in the
set is left alone. The module state is read only, never written. -/
def handleVideoPlay (v : Video) (s : GState) : Video × List Action :=
  if hasId s.userClickedPlay v.id then (v, [])
  else doPause v

/-- Core of `attachPlayListenerIfNeeded` for a non-null video (lines 49-53):
attach the 'play' listener and set the dataset marker unless already set. -/
def attachCore (v : Video) : Video × List Action :=
  if v.playListenerAttached then (v, [])
  else ({ v with playListenerAttached := true }, [Action.attachListener v.id])

/-- Function `attachPlayListenerIfNeeded` (lines 48-54): the `video &&`
guard makes a null argument a no-op. -/
def attachPlayListenerIfNeeded : Option Video → Option Video × List Action
  | none => (none, [])
  | some v => (some (attachCore v).1, (attachCore v).2)

/-- The `shouldPause` computation of `pauseVideoIfAppropriate`
(lines 74-83): assertive mode ignores the current paused flag and pauses
unless the user clicked; normal (conservative) mode pauses only a playing,
un-clicked video. -/
def shouldPauseFlag (v : Video) (s : GState) (assertive : Bool) : Bool :=
  if assertive then !(hasId s.userClickedPlay v.id)
  else !v.paused && !(hasId s.userClickedPlay v.id)

/-- Body of `pauseVideoIfAppropriate` after the null check (lines 67-101):
log the check, compute `shouldPause`, and run the guarded pause sequence
when it holds. -/
def pauseVideoCore (v : Video) (s : GState) (assertive : Bool) :
    Video × List Action :=
  if shouldPauseFlag v s assertive then
    ((doPause v).1, Action.check v.id assertive :: (doPause v).2)
  else (v, [Action.check v.id assertive])

/-- Function `pauseVideoIfAppropriate` (lines 63-105): first ensure the play
listener is attached (line 65), then — for a non-null video — decide and
possibly issue the pause. A null video falls through to the skip branch
(line 103). The module state is read only. -/
def pauseVideoIfAppropriate (video : Option Video) (s : GState)
    (assertive : Bool) : Option Video × List Action :=
  match attachPlayListenerIfNeeded video with
  | (none, a) => (none, a)
  | (some v, a) =>
      (some (pauseVideoCore v s assertive).1, a ++ (pauseVideoCore v s assertive).2)

/-- The IntersectionObserver threshold of `createIntersectionObserver`
(line 135): 0.1, i.e. the callback fires once at least 10% of the video is
visible. -/
def intersectionThresholdPercent : Nat := 10

/-- One IntersectionObserver entry: whether the target is now intersecting
the viewport and whether it is an HTMLVideoElement (the guard at
line 117). -/
structure ObserverEntry where
  isIntersecting : Bool
  targetIsVideo : Bool
  target : Video
deriving DecidableEq

/-- Per-entry body of `handleIntersection` (lines 115-126): for an
intersecting video target, an immediate assertive check plus a scheduled
50 ms assertive re-check; any other entry is ignored. -/
def handleIntersectionEntry (e : ObserverEntry) (s : GState) : List Action :=
  if e.isIntersecting && e.targetIsVideo then
    (pauseVideoIfAppropriate (some e.target) s true).2 ++
      [Action.scheduleRecheck e.target.id 50]
  else []

/-- Function `handleIntersection` (lines 113-127): `entries.forEach` over the
per-entry body. -/
def handleIntersection : List ObserverEntry → GState → List Action
  | [], _ => []
  | e :: rest, s => handleIntersectionEntry e s ++ handleIntersection rest s

/-- The callback scheduled by the `setTimeout` at lines 121-124: an assertive
check of the same video, run 50 ms later against the then-current state. -/
def intersectionTimeoutCheck (v : Video) (s : GState) :
    Option Video × List Action :=
  pauseVideoIfAppropriate (some v) s true

/-- Per-video body of `scanAndObserveAllVideos` (lines 151-165): attach the
play listener; when the video is not yet in `observedVideos`, register it
with the IntersectionObserver, add it to the set, and run the initial
conservative check; otherwise skip it entirely. -/
def scanStep (v : Video) (s : GState) : Video × GState × List Action :=
  if hasId s.observedVideos (attachCore v).1.id then
    ((attachCore v).1, s, (attachCore v).2)
  else
    ((pauseVideoIfAppropriate (some (attachCore v).1)
        { s with observedVideos := (attachCore v).1.id :: s.observedVideos }
        false).1.getD (attachCore v).1,
     { s with observedVideos := (attachCore v).1.id :: s.observedVideos },
     (attachCore v).2 ++ Action.observe (attachCore v).1.id ::
       (pauseVideoIfAppropriate (some (attachCore v).1)
         { s with observedVideos := (attachCore v).1.id :: s.observedVideos }
         false).2)

/-- Function `scanAndObserveAllVideos` (lines 146-167) over the snapshot of
all `video` elements in the document, threading the module state. -/
def scanAndObserveAllVideos : List Video → GState →
    List Video × GState × List Action
  | [], s => ([], s, [])
  | v :: rest, s =>
      ((scanStep v s).1 :: (scanAndObserveAllVideos rest (scanStep v s).2.1).1,
       (scanAndObserveAllVideos rest (scanStep v s).2.1).2.1,
       (scanStep v s).2.2 ++
         (scanAndObserveAllVideos rest (scanStep v s).2.1).2.2)

/-- A session of Discovery Scanner runs: each element is the document's video
snapshot at one debounced scan. -/
def runSession : List (List Video) → GState → GState × List Action
  | [], s => (s, [])
  | vs :: rest, s =>
      ((runSession rest (scanAndObserveAllVideos vs s).2.1).1,
       (scanAndObserveAllVideos vs s).2.2 ++
         (runSession rest (scanAndObserveAllVideos vs s).2.1).2)

/-- The debounce quiet window of `debouncedScanAndObserve` (line 179). -/
def DEBOUNCE_MS : Nat := 300

/-- Trailing-edge debounce of `debouncedScanAndObserve` (lines 173-180),
run over the time-ordered list of trigger instants with the pending-timer
deadline as state (`debounceTimer`, line 16; `none` = no pending timer —
at most one timer exists by construction). A pending deadline at or before
the next trigger fires first (the scan runs); a trigger always
clears any pending timer and schedules a fresh deadline 300 ms out
(lines 174-179). Returns the instants at which the scan runs. -/
def debounceRun : List Nat → Option Nat → List Nat
  | [], none => []
  | [], some d => [d]
  | t :: rest, none => debounceRun rest (some (t + DEBOUNCE_MS))
  | t :: rest, some d =>
      if d ≤ t then d :: debounceRun rest (some (t + DEBOUNCE_MS))
      else debounceRun rest (some (t + DEBOUNCE_MS))

/-- Last element of a trigger-time list, with a default for the empty list. -/
def lastD : Nat → List Nat → Nat
  | t, [] => t
  | _, b :: rest => lastD b rest

/-- Time-ordered trigger instants each arriving within the quiet window of
the previous one, starting from instant `t`. -/
def chainFrom : Nat → List Nat → Bool
  | _, [] => true
  | t, b :: rest =>
      decide (t ≤ b) && decide (b < t + DEBOUNCE_MS) && chainFrom b rest

/-- One MutationRecord as the mutation callback reads it (line 234): its
type and the sizes of `addedNodes` / `removedNodes`. -/
structure MutationRecord where
  isChildList : Bool
  addedNodes : Nat
  removedNodes : Nat
deriving DecidableEq

/-- The mutation-callback filter (lines 230-239): some record is a childList
mutation with added or removed nodes. -/
def mutationBatchQualifies : List MutationRecord → Bool
  | [] => false
  | m :: rest =>
      (m.isChildList && (decide (0 < m.addedNodes) ||
        decide (0 < m.removedNodes))) || mutationBatchQualifies rest

/-- Trigger instants reaching `debouncedScanAndObserve`: the instants of the
mutation batches passing the filter (lines 241-244). -/
def mutationEvents (evs : List (Nat × List MutationRecord)) : List Nat :=
  (evs.filter (fun p => mutationBatchQualifies p.2)).map Prod.fst

/-- The Mutation Watcher pipeline (lines 225-250 with lines 173-180): filter
the timed batches, then debounce; the result is the list of instants at
which `scanAndObserveAllVideos` runs. -/
def runMutationWatcher (evs : List (Nat × List MutationRecord)) : List Nat :=
  debounceRun (mutationEvents evs) none

/-- A delegated click as `handleBodyClick` decodes it: `none` when
`closest(...)` finds no player container (line 190), `some none` when the
container holds no `video` (line 194), `some (some v)` otherwise. -/
structure ClickEvent where
  container : Option (Option Video)
deriving DecidableEq

/-- Result of one `handleBodyClick` run: the (possibly updated) video, the
module state after the handler, the trace, and whether a synchronous
exception escaped the handler to the event dispatcher. -/
structure ClickResult where
  video : Option Video
  state : GState
  trace : List Action
  escaped : Bool
deriving DecidableEq

/-- Function `handleBodyClick` (lines 188-218): on a click resolving to a
video, attach the play listener, add the video to `userClickedPlay` unless
already present (lines 200-205), then call `video.play()` (line 207).
The play call stands outside any try/catch, so a synchronous raise
propagates out of the handler — after the set mutation has already been
applied; an asynchronous rejection is merely logged by the `.catch`
(lines 209-211). -/
def handleBodyClick : ClickEvent → GState → ClickResult
  | ⟨none⟩, s => ⟨none, s, [], false⟩
  | ⟨some none⟩, s => ⟨none, s, [], false⟩
  | ⟨some (some v)⟩, s =>
      if hasId s.userClickedPlay (attachCore v).1.id then
        if (attachCore v).1.playThrows then
          ⟨some (attachCore v).1, s,
           (attachCore v).2 ++ [Action.playCall (attachCore v).1.id], true⟩
        else
          ⟨some (attachCore v).1, s,
           (attachCore v).2 ++ Action.playCall (attachCore v).1.id ::
             (if (attachCore v).1.playRejects
              then [Action.playRejected (attachCore v).1.id] else []),
           false⟩
      else
        if (attachCore v).1.playThrows then
          ⟨some (attachCore v).1,
           { s with userClickedPlay := (attachCore v).1.id :: s.userClickedPlay },
           (attachCore v).2 ++ Action.grantIntent (attachCore v).1.id ::
             [Action.playCall (attachCore v).1.id], true⟩
        else
          ⟨some (attachCore v).1,
           { s with userClickedPlay := (attachCore v).1.id :: s.userClickedPlay },
           (attachCore v).2 ++ Action.grantIntent (attachCore v).1.id ::
             Action.playCall (attachCore v).1.id ::
             (if (attachCore v).1.playRejects
              then [Action.playRejected (attachCore v).1.id] else []),
           false⟩

/-- The same video with a non-raising pause primitive; used to compare a
batch containing a throwing video with the same batch without the throw. -/
def scrubPauseThrow (v : Video) : Video := { v with pauseThrows := false }

/-! ### Basic lemmas about the embedded operations -/

theorem attachCore_id (v : Video) : (attachCore v).1.id = v.id := by
  unfold attachCore; split <;> rfl

theorem attachCore_paused (v : Video) : (attachCore v).1.paused = v.paused := by
  unfold attachCore; split <;> rfl

theorem attachCore_pauseThrows (v : Video) :
    (attachCore v).1.pauseThrows = v.pauseThrows := by
  unfold attachCore; split <;> rfl

theorem mem_attachCore_trace {v : Video} {a : Action}
    (h : a ∈ (attachCore v).2) : a = Action.attachListener v.id := by
  unfold attachCore at h
  split at h <;> simp_all

theorem pause_trace_eq (v : Video) (s : GState) (b : Bool) :
    (pauseVideoIfAppropriate (some v) s b).2 =
      (attachCore v).2 ++ (pauseVideoCore (attachCore v).1 s b).2 := rfl

theorem shouldPauseFlag_attachCore (v : Video) (s : GState) (b : Bool) :
    shouldPauseFlag (attachCore v).1 s b = shouldPauseFlag v s b := by
  unfold shouldPauseFlag
  rw [attachCore_paused, attachCore_id]

theorem pauseCall_mem_doPause (v : Video) :
    Action.pauseCall v.id ∈ (doPause v).2 := by
  unfold doPause hostPause
  split <;> simp_all

theorem pauseCall_mem_iff (v : Video) (s : GState) (b : Bool) :
    Action.pauseCall v.id ∈ (pauseVideoIfAppropriate (some v) s b).2 ↔
      shouldPauseFlag v s b = true := by
  rw [pause_trace_eq]
  unfold pauseVideoCore
  rw [shouldPauseFlag_attachCore]
  by_cases h : shouldPauseFlag v s b = true
  · rw [if_pos h]
    simp only [h, iff_true, List.mem_append, List.mem_cons]
    refine Or.inr (Or.inr ?_)
    have hm := pauseCall_mem_doPause (attachCore v).1
    rw [attachCore_id] at hm
    exact hm
  · rw [if_neg h]
    simp only [List.mem_append, List.mem_cons, List.not_mem_nil, or_false]
    constructor
    · intro hmem
      rcases hmem with hl | hc
      · have := mem_attachCore_trace hl
        simp at this
      · simp at hc
    · intro hh
      exact absurd hh h

/-! ### Claim C10 -/

/-- Claim C10: calling the enforcement operation with a null video handle,
in either assertive or conservative mode, is a safe no-op — it returns
normally with an empty trace (no pause call, no hook attachment) and a
null listener attachment is likewise a no-op. -/
theorem c10_null_video_noop : ∀ (s : GState) (b : Bool),
    pauseVideoIfAppropriate none s b = (none, []) ∧
    attachPlayListenerIfNeeded none = (none, []) := by
  intro s b; exact ⟨rfl, rfl⟩

/-! ### Claim C5 -/

/-- Claim C5: in conservative mode, enforcement issues a pause call if and
only if the video is currently playing (`paused = false`) and not in the
IntentSet; an already-paused or authorized video gets no pause call. -/
theorem c5_conservative_iff : ∀ (v : Video) (s : GState),
    Action.pauseCall v.id ∈ (pauseVideoIfAppropriate (some v) s false).2 ↔
      (v.paused = false ∧ hasId s.userClickedPlay v.id = false) := by
  intro v s
  rw [pauseCall_mem_iff]
  unfold shouldPauseFlag
  simp [Bool.and_eq_true, Bool.not_eq_true']

/-! ### Claim C2 -/

/-- Claim C2: while a video is a member of the IntentSet, no enforcement
path issues a pause call on it: neither `pauseVideoIfAppropriate` (in
assertive or conservative mode, covering the Visibility Monitor and the
Discovery Scanner) nor the play-interceptor handler `handleVideoPlay`. -/
theorem c2_intent_blocks_all_pauses : ∀ (v : Video) (s : GState) (b : Bool),
    hasId s.userClickedPlay v.id = true →
    Action.pauseCall v.id ∉ (pauseVideoIfAppropriate (some v) s b).2 ∧
    Action.pauseCall v.id ∉ (handleVideoPlay v s).2 := by
  intro v s b h
  constructor
  · rw [pauseCall_mem_iff]
    unfold shouldPauseFlag
    cases b <;> simp [h]
  · unfold handleVideoPlay
    simp [h]

/-- Witness for C2 at a concrete authorized video. -/
theorem c2_witness :
    Action.pauseCall 7 ∉ (pauseVideoIfAppropriate
      (some ⟨7, false, false, false, true, false, false⟩) ⟨[7], []⟩ true).2 ∧
    Action.pauseCall 7 ∉ (handleVideoPlay
      ⟨7, false, false, false, true, false, false⟩ ⟨[7], []⟩).2 := by
  exact c2_intent_blocks_all_pauses
    ⟨7, false, false, false, true, false, false⟩ ⟨[7], []⟩ true (by decide)

/-! ### Claims C1 and C3 -/

theorem mem_handleIntersection {e : ObserverEntry} {entries : List ObserverEntry}
    {s : GState} {a : Action} (he : e ∈ entries)
    (ha : a ∈ handleIntersectionEntry e s) : a ∈ handleIntersection entries s := by
  induction entries with
  | nil => cases he
  | cons x rest ih =>
    unfold handleIntersection
    rw [List.mem_append]
    rcases List.mem_cons.mp he with hex | hmem
    · exact Or.inl (hex ▸ ha)
    · exact Or.inr (ih hmem)

theorem assertive_pause_mem (v : Video) (s : GState)
    (h : hasId s.userClickedPlay v.id = false) :
    Action.pauseCall v.id ∈ (pauseVideoIfAppropriate (some v) s true).2 := by
  rw [pauseCall_mem_iff]
  unfold shouldPauseFlag
  simp [h]

/-- Claim C1: for a video not in the IntentSet, an intersection entry
reporting it visible (the observer is registered at the 10% threshold)
yields an immediate assertive pause call, plus a scheduled 50 ms re-check
whose callback is again an assertive pause — which issues a pause call in
any state where the video is still unauthorized, regardless of the video's
current paused flag. -/
theorem c1_assertive_pause_on_visibility :
    ∀ (e : ObserverEntry) (entries : List ObserverEntry) (s : GState),
    e ∈ entries → e.isIntersecting = true → e.targetIsVideo = true →
    hasId s.userClickedPlay e.target.id = false →
    Action.pauseCall e.target.id ∈ handleIntersection entries s ∧
    Action.scheduleRecheck e.target.id 50 ∈ handleIntersection entries s ∧
    (∀ s2 : GState, hasId s2.userClickedPlay e.target.id = false →
       Action.pauseCall e.target.id ∈ (intersectionTimeoutCheck e.target s2).2) ∧
    intersectionThresholdPercent = 10 := by
  intro e entries s he hi hv h
  have hcond : (e.isIntersecting && e.targetIsVideo) = true := by
    rw [hi, hv]; rfl
  have htr : handleIntersectionEntry e s =
      (pauseVideoIfAppropriate (some e.target) s true).2 ++
        [Action.scheduleRecheck e.target.id 50] := by
    unfold handleIntersectionEntry
    rw [if_pos hcond]
  refine ⟨?_, ?_, ?_, rfl⟩
  · refine mem_handleIntersection he ?_
    rw [htr, List.mem_append]
    exact Or.inl (assertive_pause_mem e.target s h)
  · refine mem_handleIntersection he ?_
    rw [htr, List.mem_append]
    exact Or.inr (List.mem_singleton.mpr rfl)
  · intro s2 h2
    exact assertive_pause_mem e.target s2 h2

/-- Witness for C1: a single visible entry for an unauthorized video that is
already paused still gets the immediate pause call and the 50 ms re-check
(assertive mode ignores the paused flag). -/
theorem c1_witness :
    Action.pauseCall 0 ∈ handleIntersection
      [⟨true, true, ⟨0, true, false, false, true, false, false⟩⟩] ⟨[], []⟩ ∧
    Action.scheduleRecheck 0 50 ∈ handleIntersection
      [⟨true, true, ⟨0, true, false, false, true, false, false⟩⟩] ⟨[], []⟩ := by
  have h := c1_assertive_pause_on_visibility
    ⟨true, true, ⟨0, true, false, false, true, false, false⟩⟩
    [⟨true, true, ⟨0, true, false, false, true, false, false⟩⟩]
    ⟨[], []⟩ (by decide) rfl rfl (by decide)
  exact ⟨h.1, h.2.1⟩

/-- Counterexample to claim C3 as stated: a playing, unauthorized video whose
intersection entry reports it transitioning OUT of visibility
(`isIntersecting = false`) receives no pause call at all — the handler only
acts on entries that report the video becoming visible. -/
theorem c3_counterexample :
    Action.pauseCall 0 ∉ handleIntersection
      [⟨false, true, ⟨0, false, false, false, true, false, false⟩⟩] ⟨[], []⟩ := by
  decide

/-- Claim C3 (amended): the visibility-driven enforcement issues a pause
attempt when a video transitions INTO the visible area (an intersecting
entry, for a video not in the IntentSet); an entry reporting the video
leaving visibility produces no action, so no pause attempt is issued on
exit. -/
theorem c3_pause_on_entering_not_leaving : ∀ (e : ObserverEntry) (s : GState),
    (e.isIntersecting = false → handleIntersectionEntry e s = []) ∧
    (e.isIntersecting = true → e.targetIsVideo = true →
      hasId s.userClickedPlay e.target.id = false →
      Action.pauseCall e.target.id ∈ handleIntersectionEntry e s) := by
  intro e s
  constructor
  · intro hf
    unfold handleIntersectionEntry
    rw [if_neg (by simp [hf])]
  · intro hi hv h
    unfold handleIntersectionEntry
    rw [if_pos (by rw [hi, hv]; rfl), List.mem_append]
    exact Or.inl (assertive_pause_mem e.target s h)

/-- Witness for the amended C3 at concrete entries: a leaving entry produces
an empty trace, an entering entry produces a pause call. -/
theorem c3_witness :
    handleIntersectionEntry
      ⟨false, true, ⟨1, false, false, false, true, false, false⟩⟩ ⟨[], []⟩ = [] ∧
    Action.pauseCall 1 ∈ handleIntersectionEntry
      ⟨true, true, ⟨1, false, false, false, true, false, false⟩⟩ ⟨[], []⟩ := by
  exact ⟨(c3_pause_on_entering_not_leaving
            ⟨false, true, ⟨1, false, false, false, true, false, false⟩⟩ ⟨[], []⟩).1 rfl,
         (c3_pause_on_entering_not_leaving
            ⟨true, true, ⟨1, false, false, false, true, false, false⟩⟩ ⟨[], []⟩).2
            rfl rfl (by decide)⟩

/-! ### Claim C4 -/

theorem filter_all {α : Type} (p : α → Bool) :
    ∀ l : List α, (∀ a ∈ l, p a = true) → l.filter p = l := by
  intro l h
  induction l with
  | nil => rfl
  | cons x rest ih =>
    rw [List.filter_cons, if_pos (h x (List.mem_cons_self x rest))]
    rw [ih (fun a ha => h a (List.mem_cons_of_mem x ha))]

theorem debounce_aux : ∀ (ts : List Nat) (t : Nat), chainFrom t ts = true →
    debounceRun ts (some (t + DEBOUNCE_MS)) = [lastD t ts + DEBOUNCE_MS] := by
  intro ts
  induction ts with
  | nil => intro t _; rfl
  | cons b rest ih =>
    intro t h
    unfold chainFrom at h
    simp only [Bool.and_eq_true, decide_eq_true_eq] at h
    unfold debounceRun
    rw [if_neg (Nat.not_le.mpr h.1.2)]
    exact ih b h.2

/-- Claim C4: a nonempty run of qualifying structural-mutation batches, each
arriving within the 300 ms quiet window of the previous one, produces
exactly one Discovery Scanner invocation, at exactly 300 ms after the last
batch; the debounce state holds at most one pending deadline by
construction (each trigger replaces it). -/
theorem c4_debounce_single_scan :
    ∀ (e : Nat × List MutationRecord) (evs : List (Nat × List MutationRecord)),
    (∀ p ∈ e :: evs, mutationBatchQualifies p.2 = true) →
    chainFrom e.1 (evs.map Prod.fst) = true →
    runMutationWatcher (e :: evs) =
      [lastD e.1 (evs.map Prod.fst) + DEBOUNCE_MS] := by
  intro e evs hq hc
  unfold runMutationWatcher mutationEvents
  rw [filter_all _ _ (fun p hp => hq p hp)]
  have : (e :: evs).map Prod.fst = e.1 :: evs.map Prod.fst := rfl
  rw [this]
  exact debounce_aux (evs.map Prod.fst) e.1 hc

/-- Witness for C4: three qualifying batches at 0, 100 and 250 ms (each
within 300 ms of the previous) yield exactly one scan, at 550 ms. -/
theorem c4_witness :
    runMutationWatcher
      [(0, [⟨true, 1, 0⟩]), (100, [⟨true, 0, 2⟩]), (250, [⟨true, 3, 0⟩])]
      = [550] := by
  exact c4_debounce_single_scan (0, [⟨true, 1, 0⟩])
    [(100, [⟨true, 0, 2⟩]), (250, [⟨true, 3, 0⟩])] (by decide) (by decide)

/-! ### Claim C9 -/

theorem scanStep_userClickedPlay (v : Video) (s : GState) :
    (scanStep v s).2.1.userClickedPlay = s.userClickedPlay := by
  unfold scanStep
  split <;> rfl

theorem scan_userClickedPlay : ∀ (vs : List Video) (s : GState),
    (scanAndObserveAllVideos vs s).2.1.userClickedPlay = s.userClickedPlay := by
  intro vs
  induction vs with
  | nil => intro s; rfl
  | cons v rest ih =>
    intro s
    unfold scanAndObserveAllVideos
    rw [ih (scanStep v s).2.1, scanStep_userClickedPlay]

theorem session_userClickedPlay : ∀ (scans : List (List Video)) (s : GState),
    (runSession scans s).1.userClickedPlay = s.userClickedPlay := by
  intro scans
  induction scans with
  | nil => intro s; rfl
  | cons vs rest ih =>
    intro s
    unfold runSession
    rw [ih, scan_userClickedPlay]

/-- Claim C9: IntentSet membership is additive only. The click handler either
leaves `userClickedPlay` unchanged or prepends one element; the Discovery
Scanner (and hence a whole session of scans) never changes it at all; no
operation removes an element. -/
theorem c9_intent_monotone : ∀ (ev : ClickEvent) (s : GState)
    (vs : List Video) (scans : List (List Video)),
    ((handleBodyClick ev s).state.userClickedPlay = s.userClickedPlay ∨
      ∃ a, (handleBodyClick ev s).state.userClickedPlay
            = a :: s.userClickedPlay) ∧
    (scanAndObserveAllVideos vs s).2.1.userClickedPlay = s.userClickedPlay ∧
    (runSession scans s).1.userClickedPlay = s.userClickedPlay := by
  intro ev s vs scans
  refine ⟨?_, scan_userClickedPlay vs s, session_userClickedPlay scans s⟩
  rcases ev with ⟨c⟩
  match c with
  | none => exact Or.inl rfl
  | some none => exact Or.inl rfl
  | some (some v) =>
    show (handleBodyClick ⟨some (some v)⟩ s).state.userClickedPlay
          = s.userClickedPlay ∨ _
    simp only [handleBodyClick]
    by_cases h : hasId s.userClickedPlay (attachCore v).1.id = true
    · rw [if_pos h]
      split <;> exact Or.inl rfl
    · rw [if_neg h]
      split <;> exact Or.inr ⟨(attachCore v).1.id, rfl⟩

/-! ### Claim C6 -/

theorem hasId_false_iff : ∀ (l : List Nat) (w : Nat),
    hasId l w = false ↔ cnt w l = 0 := by
  intro l w
  induction l with
  | nil => simp [hasId, cnt]
  | cons a t ih =>
    unfold hasId cnt
    by_cases ha : a = w
    · simp [ha]
    · simp [ha, ih]

theorem handleBodyClick_state_new (v : Video) (s : GState)
    (h : hasId s.userClickedPlay v.id = false) :
    (handleBodyClick ⟨some (some v)⟩ s).state
      = ⟨v.id :: s.userClickedPlay, s.observedVideos⟩ := by
  simp only [handleBodyClick]
  rw [attachCore_id, if_neg (by simp [h])]
  split <;> rfl

theorem handleBodyClick_state_granted (v : Video) (s : GState)
    (h : hasId s.userClickedPlay v.id = true) :
    (handleBodyClick ⟨some (some v)⟩ s).state = s := by
  simp only [handleBodyClick]
  rw [attachCore_id, if_pos h]
  split <;> rfl

theorem handleBodyClick_trace_new (v : Video) (s : GState)
    (h : hasId s.userClickedPlay v.id = false) :
    ∃ l2, (handleBodyClick ⟨some (some v)⟩ s).trace
        = (attachCore v).2 ++ Action.grantIntent v.id :: l2 ∧
      Action.playCall v.id ∈ l2 := by
  simp only [handleBodyClick]
  rw [attachCore_id, if_neg (by simp [h])]
  by_cases ht : (attachCore v).1.playThrows = true
  · rw [if_pos ht]
    exact ⟨[Action.playCall v.id], rfl, by simp⟩
  · rw [if_neg ht]
    refine ⟨Action.playCall v.id ::
      (if (attachCore v).1.playRejects = true
       then [Action.playRejected v.id] else []), rfl, List.mem_cons_self _ _⟩

/-- Claim C6: a click resolving to a video not yet in the IntentSet adds it
exactly once; a repeat click on the same video (same identity) leaves the
set unchanged; the intent grant appears in the trace strictly before the
play call; and the post-click state is identical whether or not the
asynchronous play invocation is rejected. -/
theorem c6_click_grant_idempotent : ∀ (v : Video) (s : GState),
    cnt v.id s.userClickedPlay = 0 →
    cnt v.id (handleBodyClick ⟨some (some v)⟩ s).state.userClickedPlay = 1 ∧
    (∀ w : Video, w.id = v.id →
      (handleBodyClick ⟨some (some w)⟩
          (handleBodyClick ⟨some (some v)⟩ s).state).state
        = (handleBodyClick ⟨some (some v)⟩ s).state) ∧
    (∃ l1 l2, (handleBodyClick ⟨some (some v)⟩ s).trace
        = l1 ++ Action.grantIntent v.id :: l2 ∧ Action.playCall v.id ∈ l2) ∧
    (handleBodyClick ⟨some (some { v with playRejects := true })⟩ s).state
        = (handleBodyClick ⟨some (some v)⟩ s).state := by
  intro v s h
  have hf : hasId s.userClickedPlay v.id = false := (hasId_false_iff _ _).mpr h
  have hst := handleBodyClick_state_new v s hf
  refine ⟨?_, ?_, ?_, ?_⟩
  · rw [hst]
    show cnt v.id (v.id :: s.userClickedPlay) = 1
    unfold cnt
    rw [if_pos rfl, h]
  · intro w hw
    rw [hst]
    refine handleBodyClick_state_granted w _ ?_
    rw [hw]
    show hasId (v.id :: s.userClickedPlay) v.id = true
    unfold hasId
    rw [if_pos rfl]
  · obtain ⟨l2, he, hm⟩ := handleBodyClick_trace_new v s hf
    exact ⟨(attachCore v).2, l2, he, hm⟩
  · rw [hst]
    have hid : ({ v with playRejects := true } : Video).id = v.id := rfl
    rw [handleBodyClick_state_new { v with playRejects := true } s
          (by rw [hid]; exact hf), hid]

/-- Witness for C6 at a concrete video whose play invocation rejects: one
click grants intent exactly once, a second click changes nothing. -/
theorem c6_witness :
    cnt 5 (handleBodyClick
        ⟨some (some ⟨5, true, false, false, true, false, true⟩)⟩
        ⟨[], []⟩).state.userClickedPlay = 1 ∧
    (handleBodyClick ⟨some (some ⟨5, true, false, false, true, false, true⟩)⟩
        (handleBodyClick
          ⟨some (some ⟨5, true, false, false, true, false, true⟩)⟩
          ⟨[], []⟩).state).state
      = (handleBodyClick
          ⟨some (some ⟨5, true, false, false, true, false, true⟩)⟩
          ⟨[], []⟩).state := by
  have h := c6_click_grant_idempotent
    ⟨5, true, false, false, true, false, true⟩ ⟨[], []⟩ (by decide)
  exact ⟨h.1, h.2.1 ⟨5, true, false, false, true, false, true⟩ rfl⟩

/-! ### Counting lemmas for C7 -/

theorem cnt_nil {α : Type} [DecidableEq α] (a : α) : cnt a [] = 0 := rfl

theorem cnt_cons {α : Type} [DecidableEq α] (a x : α) (t : List α) :
    cnt a (x :: t) = (if x = a then 1 else 0) + cnt a t := rfl

theorem hasId_cons (x : Nat) (l : List Nat) (w : Nat) :
    hasId (x :: l) w = if x = w then true else hasId l w := rfl

theorem boolNat_true : boolNat true = 1 := rfl

theorem boolNat_false : boolNat false = 0 := rfl

theorem cnt_append {α : Type} [DecidableEq α] (a : α) :
    ∀ l1 l2 : List α, cnt a (l1 ++ l2) = cnt a l1 + cnt a l2 := by
  intro l1 l2
  induction l1 with
  | nil => rw [List.nil_append, cnt_nil, Nat.zero_add]
  | cons x t ih =>
    rw [List.cons_append, cnt_cons, cnt_cons, ih, Nat.add_assoc]

theorem cnt_eq_zero {α : Type} [DecidableEq α] (a : α) (l : List α)
    (h : ∀ b ∈ l, b ≠ a) : cnt a l = 0 := by
  induction l with
  | nil => rfl
  | cons x t ih =>
    rw [cnt_cons, if_neg (h x (List.mem_cons_self x t)),
        ih (fun b hb => h b (List.mem_cons_of_mem x hb)), Nat.zero_add]

theorem mem_doPause_trace {v : Video} {a : Action} (h : a ∈ (doPause v).2) :
    a = Action.pauseCall v.id ∨ a = Action.pauseError v.id ∨
    a = Action.pauseAnomaly v.id := by
  unfold doPause hostPause at h
  by_cases ht : v.pauseThrows = true
  · rw [if_pos ht] at h
    simp at h
    tauto
  · rw [if_neg ht] at h
    rcases List.mem_cons.mp h with h1 | h2
    · exact Or.inl h1
    · split at h2
      · simp at h2
      · simp at h2
        tauto

theorem mem_pause_trace {v : Video} {s : GState} {b : Bool} {a : Action}
    (h : a ∈ (pauseVideoIfAppropriate (some v) s b).2) :
    a = Action.attachListener v.id ∨ a = Action.check v.id b ∨
    a = Action.pauseCall v.id ∨ a = Action.pauseError v.id ∨
    a = Action.pauseAnomaly v.id := by
  rw [pause_trace_eq] at h
  rcases List.mem_append.mp h with h1 | h2
  · exact Or.inl (mem_attachCore_trace h1)
  · unfold pauseVideoCore at h2
    split at h2
    · rcases List.mem_cons.mp h2 with hc | hd
      · rw [attachCore_id] at hc
        exact Or.inr (Or.inl hc)
      · have hm := mem_doPause_trace hd
        rw [attachCore_id] at hm
        tauto
    · simp at h2
      rw [attachCore_id] at h2
      exact Or.inr (Or.inl h2)

theorem attachCore_cnt_observe (v : Video) (w : Nat) :
    cnt (Action.observe w) (attachCore v).2 = 0 :=
  cnt_eq_zero _ _ (fun b hb => by rw [mem_attachCore_trace hb]; simp)

theorem attachCore_cnt_check (v : Video) (w : Nat) (b : Bool) :
    cnt (Action.check w b) (attachCore v).2 = 0 :=
  cnt_eq_zero _ _ (fun x hx => by rw [mem_attachCore_trace hx]; simp)

theorem doPause_cnt_check (v : Video) (w : Nat) (b : Bool) :
    cnt (Action.check w b) (doPause v).2 = 0 :=
  cnt_eq_zero _ _ (fun x hx => by
    rcases mem_doPause_trace hx with h | h | h <;> rw [h] <;> simp)

theorem pause_cnt_observe (v : Video) (s : GState) (b : Bool) (w : Nat) :
    cnt (Action.observe w) (pauseVideoIfAppropriate (some v) s b).2 = 0 :=
  cnt_eq_zero _ _ (fun x hx => by
    rcases mem_pause_trace hx with h | h | h | h | h <;> rw [h] <;> simp)

theorem pause_cnt_check (v : Video) (s : GState) (w : Nat) :
    cnt (Action.check w false) (pauseVideoIfAppropriate (some v) s false).2
      = if v.id = w then 1 else 0 := by
  rw [pause_trace_eq, cnt_append, attachCore_cnt_check, Nat.zero_add]
  unfold pauseVideoCore
  split
  · rw [cnt_cons, doPause_cnt_check, attachCore_id, Nat.add_zero]
    by_cases hw : v.id = w
    · rw [if_pos (by rw [hw]), if_pos hw]
    · rw [if_neg (by simp [hw]), if_neg hw]
  · rw [cnt_cons, cnt_nil, attachCore_id, Nat.add_zero]
    by_cases hw : v.id = w
    · rw [if_pos (by rw [hw]), if_pos hw]
    · rw [if_neg (by simp [hw]), if_neg hw]

theorem boolNat_le_one (b : Bool) : boolNat b ≤ 1 := by
  cases b <;> simp [boolNat]

theorem scanStep_cnt_observe (v : Video) (s : GState) (w : Nat) :
    cnt (Action.observe w) (scanStep v s).2.2 +
        boolNat (hasId s.observedVideos w)
      = boolNat (hasId (scanStep v s).2.1.observedVideos w) := by
  unfold scanStep
  by_cases h : hasId s.observedVideos (attachCore v).1.id = true
  · rw [if_pos h]
    show cnt (Action.observe w) (attachCore v).2 +
        boolNat (hasId s.observedVideos w)
      = boolNat (hasId s.observedVideos w)
    rw [attachCore_cnt_observe, Nat.zero_add]
  · rw [if_neg h]
    rw [Bool.not_eq_true, attachCore_id] at h
    show cnt (Action.observe w)
        ((attachCore v).2 ++ Action.observe (attachCore v).1.id ::
          (pauseVideoIfAppropriate (some (attachCore v).1)
            { s with observedVideos := (attachCore v).1.id :: s.observedVideos }
            false).2) +
        boolNat (hasId s.observedVideos w)
      = boolNat (hasId ((attachCore v).1.id :: s.observedVideos) w)
    rw [cnt_append, attachCore_cnt_observe, cnt_cons, pause_cnt_observe,
        attachCore_id, hasId_cons]
    by_cases hw : v.id = w
    · rw [if_pos (by rw [hw]), if_pos hw, ← hw, h, boolNat_false, boolNat_true]
    · rw [if_neg (by simp [hw]), if_neg hw]
      omega

theorem scanStep_cnt_check (v : Video) (s : GState) (w : Nat) :
    cnt (Action.check w false) (scanStep v s).2.2
      = cnt (Action.observe w) (scanStep v s).2.2 := by
  unfold scanStep
  by_cases h : hasId s.observedVideos (attachCore v).1.id = true
  · rw [if_pos h]
    show cnt (Action.check w false) (attachCore v).2
      = cnt (Action.observe w) (attachCore v).2
    rw [attachCore_cnt_observe, attachCore_cnt_check]
  · rw [if_neg h]
    show cnt (Action.check w false)
        ((attachCore v).2 ++ Action.observe (attachCore v).1.id ::
          (pauseVideoIfAppropriate (some (attachCore v).1)
            { s with observedVideos := (attachCore v).1.id :: s.observedVideos }
            false).2)
      = cnt (Action.observe w)
        ((attachCore v).2 ++ Action.observe (attachCore v).1.id ::
          (pauseVideoIfAppropriate (some (attachCore v).1)
            { s with observedVideos := (attachCore v).1.id :: s.observedVideos }
            false).2)
    rw [cnt_append, cnt_append, attachCore_cnt_observe, attachCore_cnt_check,
        cnt_cons, cnt_cons, pause_cnt_check, pause_cnt_observe, attachCore_id]
    by_cases hw : v.id = w <;> simp [hw]

theorem scan_cons_trace (v : Video) (rest : List Video) (s : GState) :
    (scanAndObserveAllVideos (v :: rest) s).2.2
      = (scanStep v s).2.2 ++
        (scanAndObserveAllVideos rest (scanStep v s).2.1).2.2 := rfl

theorem scan_cons_state (v : Video) (rest : List Video) (s : GState) :
    (scanAndObserveAllVideos (v :: rest) s).2.1
      = (scanAndObserveAllVideos rest (scanStep v s).2.1).2.1 := rfl

theorem scan_cnt_observe : ∀ (vs : List Video) (s : GState) (w : Nat),
    cnt (Action.observe w) (scanAndObserveAllVideos vs s).2.2 +
        boolNat (hasId s.observedVideos w)
      = boolNat (hasId (scanAndObserveAllVideos vs s).2.1.observedVideos w) := by
  intro vs
  induction vs with
  | nil => intro s w; exact Nat.zero_add _
  | cons v rest ih =>
    intro s w
    rw [scan_cons_trace, scan_cons_state, cnt_append]
    have h1 := scanStep_cnt_observe v s w
    have h2 := ih (scanStep v s).2.1 w
    omega

theorem scan_cnt_check : ∀ (vs : List Video) (s : GState) (w : Nat),
    cnt (Action.check w false) (scanAndObserveAllVideos vs s).2.2
      = cnt (Action.observe w) (scanAndObserveAllVideos vs s).2.2 := by
  intro vs
  induction vs with
  | nil => intro s w; rfl
  | cons v rest ih =>
    intro s w
    rw [scan_cons_trace, cnt_append, cnt_append,
        scanStep_cnt_check, ih (scanStep v s).2.1 w]

theorem session_cons_trace (vs : List Video) (rest : List (List Video))
    (s : GState) :
    (runSession (vs :: rest) s).2
      = (scanAndObserveAllVideos vs s).2.2 ++
        (runSession rest (scanAndObserveAllVideos vs s).2.1).2 := rfl

theorem session_cons_state (vs : List Video) (rest : List (List Video))
    (s : GState) :
    (runSession (vs :: rest) s).1
      = (runSession rest (scanAndObserveAllVideos vs s).2.1).1 := rfl

theorem session_cnt_observe : ∀ (scans : List (List Video)) (s : GState)
    (w : Nat),
    cnt (Action.observe w) (runSession scans s).2 +
        boolNat (hasId s.observedVideos w)
      = boolNat (hasId (runSession scans s).1.observedVideos w) := by
  intro scans
  induction scans with
  | nil => intro s w; exact Nat.zero_add _
  | cons vs rest ih =>
    intro s w
    rw [session_cons_trace, session_cons_state, cnt_append]
    have h1 := scan_cnt_observe vs s w
    have h2 := ih (scanAndObserveAllVideos vs s).2.1 w
    omega

theorem session_cnt_check : ∀ (scans : List (List Video)) (s : GState)
    (w : Nat),
    cnt (Action.check w false) (runSession scans s).2
      = cnt (Action.observe w) (runSession scans s).2 := by
  intro scans
  induction scans with
  | nil => intro s w; rfl
  | cons vs rest ih =>
    intro s w
    rw [session_cons_trace, cnt_append, cnt_append,
        scan_cnt_check, ih (scanAndObserveAllVideos vs s).2.1 w]

/-- Claim C7: over any session of Discovery Scanner runs, a video already in
the ObservedSet is never re-registered with the IntersectionObserver and
never receives another conservative initial check; in general each video
identity is registered at most once and conservatively checked at most once
for the whole session. -/
theorem c7_register_at_most_once : ∀ (scans : List (List Video)) (s : GState)
    (w : Nat),
    (hasId s.observedVideos w = true →
      cnt (Action.observe w) (runSession scans s).2 = 0 ∧
      cnt (Action.check w false) (runSession scans s).2 = 0) ∧
    cnt (Action.observe w) (runSession scans s).2 ≤ 1 ∧
    cnt (Action.check w false) (runSession scans s).2 ≤ 1 := by
  intro scans s w
  have h1 := session_cnt_observe scans s w
  have h2 := session_cnt_check scans s w
  have h3 := boolNat_le_one (hasId (runSession scans s).1.observedVideos w)
  refine ⟨fun h => ?_, ?_, ?_⟩
  · rw [h] at h1
    have hb : boolNat true = 1 := rfl
    rw [hb] at h1
    omega
  · omega
  · omega

/-- Witness for C7: one scan of a video already observed (identity 0 in the
ObservedSet) issues no registration and no conservative check. -/
theorem c7_witness :
    cnt (Action.observe 0)
      (runSession [[⟨0, true, false, false, true, false, false⟩]]
        ⟨[], [0]⟩).2 = 0 ∧
    cnt (Action.check 0 false)
      (runSession [[⟨0, true, false, false, true, false, false⟩]]
        ⟨[], [0]⟩).2 = 0 := by
  exact (c7_register_at_most_once
    [[⟨0, true, false, false, true, false, false⟩]] ⟨[], [0]⟩ 0).1 (by decide)

/-! ### Claim C8 -/

theorem scanStep_scrub_state (v : Video) (s : GState) :
    (scanStep (scrubPauseThrow v) s).2.1 = (scanStep v s).2.1 := by
  have hid : (attachCore (scrubPauseThrow v)).1.id = (attachCore v).1.id := by
    rw [attachCore_id, attachCore_id]
    rfl
  unfold scanStep
  by_cases h : hasId s.observedVideos (attachCore v).1.id = true
  · rw [if_pos h, if_pos (by rw [hid]; exact h)]
  · rw [if_neg h, if_neg (by rw [hid]; exact h)]
    show ({ s with observedVideos :=
        (attachCore (scrubPauseThrow v)).1.id :: s.observedVideos } : GState)
      = { s with observedVideos := (attachCore v).1.id :: s.observedVideos }
    rw [hid]

theorem scanStep_new_trace (v : Video) (s : GState)
    (h : hasId s.observedVideos (attachCore v).1.id = false) :
    (scanStep v s).2.2
      = (attachCore v).2 ++ Action.observe (attachCore v).1.id ::
          (pauseVideoIfAppropriate (some (attachCore v).1)
            { s with observedVideos := (attachCore v).1.id :: s.observedVideos }
            false).2 := by
  unfold scanStep
  rw [if_neg (by simp [h])]

theorem pauseError_mem (v : Video) (s : GState) (hthrow : v.pauseThrows = true)
    (hp : v.paused = false) (hc : hasId s.userClickedPlay v.id = false) :
    Action.pauseError v.id ∈ (pauseVideoIfAppropriate (some v) s false).2 := by
  rw [pause_trace_eq, List.mem_append]
  right
  unfold pauseVideoCore
  have hs : shouldPauseFlag (attachCore v).1 s false = true := by
    rw [shouldPauseFlag_attachCore]
    unfold shouldPauseFlag
    simp [hp, hc]
  rw [if_pos hs, List.mem_cons]
  right
  have ht : (attachCore v).1.pauseThrows = true := by
    rw [attachCore_pauseThrows]; exact hthrow
  unfold doPause hostPause
  rw [if_pos ht]
  show Action.pauseError v.id ∈
    [Action.pauseCall (attachCore v).1.id, Action.pauseError (attachCore v).1.id]
  rw [attachCore_id]
  simp

/-- Counterexample to claim C8 as stated: a synchronous raise from the host's
play primitive inside the click handler is NOT caught at the call site — the
`video.play()` invocation at line 207 stands outside any try/catch, so the
exception escapes the handler to the hosting page. -/
theorem c8_counterexample :
    (handleBodyClick
      ⟨some (some ⟨0, false, false, false, true, true, false⟩)⟩
      ⟨[], []⟩).escaped = true := by
  decide

/-- Claim C8 (amended): every synchronous exception raised by the host's
PAUSE primitive is caught at the call site, logged, and swallowed — a batch
scan over multiple videos proceeds for the remaining videos exactly as if
the throw had not happened (same resulting state, identical remaining
trace), and the play-interceptor handler likewise catches and logs the
raise; only a synchronous raise from the play primitive in the click
handler escapes (see the counterexample). -/
theorem c8_pause_throw_isolated : ∀ (v : Video) (rest : List Video)
    (s : GState), v.pauseThrows = true →
    (v.paused = false → hasId s.userClickedPlay v.id = false →
      hasId s.observedVideos v.id = false →
      Action.pauseError v.id ∈ (scanAndObserveAllVideos (v :: rest) s).2.2) ∧
    (scanAndObserveAllVideos (v :: rest) s).2.1
        = (scanAndObserveAllVideos (scrubPauseThrow v :: rest) s).2.1 ∧
    (scanAndObserveAllVideos (v :: rest) s).2.2.drop (scanStep v s).2.2.length
        = (scanAndObserveAllVideos (scrubPauseThrow v :: rest) s).2.2.drop
            (scanStep (scrubPauseThrow v) s).2.2.length ∧
    (hasId s.userClickedPlay v.id = false →
      Action.pauseError v.id ∈ (handleVideoPlay v s).2) := by
  intro v rest s hthrow
  refine ⟨?_, ?_, ?_, ?_⟩
  · intro hp hc hobs
    rw [scan_cons_trace, List.mem_append]
    left
    rw [scanStep_new_trace v s (by rw [attachCore_id]; exact hobs)]
    rw [List.mem_append, List.mem_cons]
    refine Or.inr (Or.inr ?_)
    have hm := pauseError_mem (attachCore v).1
      { s with observedVideos := (attachCore v).1.id :: s.observedVideos }
      (by rw [attachCore_pauseThrows]; exact hthrow)
      (by rw [attachCore_paused]; exact hp)
      (by rw [attachCore_id]; exact hc)
    rw [attachCore_id] at hm
    exact hm
  · rw [scan_cons_state, scan_cons_state, scanStep_scrub_state]
  · rw [scan_cons_trace, scan_cons_trace, List.drop_left, List.drop_left,
        scanStep_scrub_state]
  · intro hc
    unfold handleVideoPlay
    rw [if_neg (by simp [hc])]
    unfold doPause hostPause
    rw [if_pos hthrow]
    show Action.pauseError v.id ∈
      [Action.pauseCall v.id, Action.pauseError v.id]
    simp

/-- Witness for the amended C8: scanning a batch headed by a video whose
pause primitive throws still logs the error and ends in the same state as
the throw-free batch. -/
theorem c8_witness :
    Action.pauseError 0 ∈ (scanAndObserveAllVideos
      [⟨0, false, false, true, true, false, false⟩] ⟨[], []⟩).2.2 ∧
    (scanAndObserveAllVideos
      [⟨0, false, false, true, true, false, false⟩] ⟨[], []⟩).2.1
      = (scanAndObserveAllVideos
          [scrubPauseThrow ⟨0, false, false, true, true, false, false⟩]
          ⟨[], []⟩).2.1 := by
  have h := c8_pause_throw_isolated
    ⟨0, false, false, true, true, false, false⟩ [] ⟨[], []⟩ rfl
  exact ⟨h.1 rfl (by decide) (by decide), h.2.1⟩

end AutoPause
